import Mathlib

/-!
# Nova Defense simulation engine: a shallow embedding

This development embeds the simulation core of the Nova Defense game
(`src/App.tsx`, `src/constants.ts`, plus the entity declarations) into Lean.

Modelling conventions:

* JavaScript `number` fields holding coordinates, speeds, angles, progress,
  radii and lifetimes are modelled as real numbers (`ℝ`); `Math.sqrt`,
  `Math.cos`, `Math.sin` become `Real.sqrt`, `Real.cos`, `Real.sin`, and
  `Math.atan2 y x` becomes `Complex.arg ⟨x, y⟩`.
* `score` and turret `ammo` are integer-valued throughout the program
  (initialised to integers, changed only by `± 20` and `- 1`), so they are
  modelled as `ℤ`.
* Entity `id` strings are dropped: no branch of the simulation reads them.
* The mutable refs (`rocketsRef`, `missilesRef`, ..., `lastSpawnTimeRef`)
  together with the React state `score`/`gameState` form the `GameState`
  record; each block of the `update` callback becomes a phase function
  `GameState → GameState`, and the in-place mutation inside the JavaScript
  `filter`/`forEach` loops becomes a left fold threading an accumulator.
* `Math.random()` draws are passed in explicitly through an `Env` record
  (one draw per call site of `Math.random()` in `spawnRocket`).
* React semantics that matter and are modelled faithfully:
  - `setScore(prev => prev + POINTS_PER_ROCKET)` is a functional update, so
    the committed score accumulates every award; but the plain reads of
    `score` inside the `update` closure (the spawn-rate computation and the
    win check `score >= WIN_SCORE`) see the value captured when the
    `useCallback` closure was created, i.e. the score committed *before*
    the step.  `step` therefore latches `st.score` on entry and the win
    check compares that latched value.
  - `setGameState('LOST')` followed by `setGameState('WON')` in the same
    callback are two queued plain-value updates; the later one wins.  The
    source has no early return between the two checks, so `step` applies
    the LOST assignment first and then lets the WON assignment overwrite it.
-/

namespace NovaDefense

open Classical
noncomputable section

/-! ## Constants (`src/constants.ts`) -/

def GAME_WIDTH : ℝ := 800
def GAME_HEIGHT : ℝ := 600

def TURRET_AMMO_LEFT : ℤ := 20
def TURRET_AMMO_MIDDLE : ℤ := 40
def TURRET_AMMO_RIGHT : ℤ := 20

def ROCKET_SPEED_MIN : ℝ := 0.5
def ROCKET_SPEED_MAX : ℝ := 1.5
def MISSILE_SPEED : ℝ := 5.5
def EXPLOSION_RADIUS_MAX : ℝ := 46
def EXPLOSION_DURATION : ℝ := 60

def POINTS_PER_ROCKET : ℤ := 20
def WIN_SCORE : ℤ := 1000

/-! ## Entity model (`src/types.ts`) -/

structure Rocket where
  x : ℝ
  y : ℝ
  targetX : ℝ
  targetY : ℝ
  speed : ℝ
  angle : ℝ

structure Missile where
  x : ℝ
  y : ℝ
  targetX : ℝ
  targetY : ℝ
  startX : ℝ
  startY : ℝ
  progress : ℝ
  distance : ℝ

structure Explosion where
  x : ℝ
  y : ℝ
  radius : ℝ
  maxRadius : ℝ
  life : ℝ
  maxLife : ℝ

structure City where
  x : ℝ
  y : ℝ
  active : Bool

structure Turret where
  x : ℝ
  y : ℝ
  active : Bool
  ammo : ℤ
  maxAmmo : ℤ

inductive GameStatus where
  | START
  | PLAYING
  | PAUSED
  | WON
  | LOST
deriving DecidableEq, Repr

structure GameState where
  score : ℤ
  status : GameStatus
  rockets : List Rocket
  missiles : List Missile
  explosions : List Explosion
  cities : List City
  turrets : List Turret
  lastSpawnTime : ℝ

/-- Euclidean distance, written exactly as the source writes it:
`Math.sqrt(Math.pow(ax - bx, 2) + Math.pow(ay - by, 2))`. -/
def euclid (ax ay bx by' : ℝ) : ℝ :=
  Real.sqrt ((ax - bx) ^ 2 + (ay - by') ^ 2)

/-! ## `initGame` (`App.tsx` lines 87-120) -/

/-- City abscissas: `citySpacing = GAME_WIDTH / 8`; city `i` sits at
`(i + 1) * citySpacing`, shifted right by one spacing for `i ≥ 2` and one
more for `i ≥ 4` to skip the middle and right turrets. -/
def cityX (i : ℕ) : ℝ :=
  (i + 1) * (GAME_WIDTH / 8)
    + (if 2 ≤ i then GAME_WIDTH / 8 else 0)
    + (if 4 ≤ i then GAME_WIDTH / 8 else 0)

def initCities : List City :=
  (List.range 6).map fun i =>
    { x := cityX i, y := GAME_HEIGHT - 20, active := true }

def initTurrets : List Turret :=
  [ { x := 40, y := GAME_HEIGHT - 30, active := true,
      ammo := TURRET_AMMO_LEFT, maxAmmo := TURRET_AMMO_LEFT },
    { x := GAME_WIDTH / 2, y := GAME_HEIGHT - 30, active := true,
      ammo := TURRET_AMMO_MIDDLE, maxAmmo := TURRET_AMMO_MIDDLE },
    { x := GAME_WIDTH - 40, y := GAME_HEIGHT - 30, active := true,
      ammo := TURRET_AMMO_RIGHT, maxAmmo := TURRET_AMMO_RIGHT } ]

/-- Game initialisation: `initGame` resets score and status and rebuilds
every collection.
The `performance.now()` reading stored into `lastSpawnTimeRef` is passed
in as `now`. -/
def initGame (now : ℝ) : GameState :=
  { score := 0
    status := GameStatus.PLAYING
    rockets := []
    missiles := []
    explosions := []
    cities := initCities
    turrets := initTurrets
    lastSpawnTime := now }

/-! ## `fireMissile` (`App.tsx` lines 145-180)

The source folds over `turretsRef.current` keeping `bestTurret` (an object
reference) and `minDist` (initialised to `Infinity`).  We keep the index of
the best turret alongside the object so that the in-place mutation
`turret.ammo -= 1` can be rendered as `List.set` at that index; `none`
plays the role of the `bestTurret === null` / `minDist === Infinity`
initial state (any finite distance beats `Infinity`). -/

structure PickAcc where
  idx : ℕ
  turret : Turret
  dist : ℝ

/-- One iteration of the `forEach` selection loop: an active turret with
ammo whose horizontal distance to the target strictly beats the current
minimum becomes the new best. -/
def pickStep (targetX : ℝ) (i : ℕ) (t : Turret) (acc : Option PickAcc) :
    Option PickAcc :=
  if t.active = true ∧ 0 < t.ammo ∧ ∀ p ∈ acc, |t.x - targetX| < p.dist then
    some { idx := i, turret := t, dist := |t.x - targetX| }
  else acc

/-- The whole selection loop, `i` being the index of the first turret of
the remaining list inside the full turret list. -/
def pickBest (targetX : ℝ) : List Turret → ℕ → Option PickAcc → Option PickAcc
  | [], _, acc => acc
  | t :: rest, i, acc => pickBest targetX rest (i + 1) (pickStep targetX i t acc)

/-- Firing: `fireMissile(targetX, targetY)` is a no-op unless `PLAYING`;
otherwise pick the best turret, and if one exists decrement its ammo and
push a fresh missile.  (The `none` fallback of the inner match is
unreachable: the selected index always lies inside the list, as the
invariant `pickBest_spec` below shows.) -/
def fireMissile (targetX targetY : ℝ) (st : GameState) : GameState :=
  if st.status ≠ GameStatus.PLAYING then st
  else
    match pickBest targetX st.turrets 0 none with
    | none => st
    | some p =>
        let t := p.turret
        let dist := euclid targetX targetY t.x t.y
        { st with
          turrets := st.turrets.set p.idx { t with ammo := t.ammo - 1 }
          missiles := st.missiles ++
            [{ x := t.x, y := t.y, targetX := targetX, targetY := targetY,
               startX := t.x, startY := t.y, progress := 0, distance := dist }] }

/-! ## Spawning (`App.tsx` lines 122-143 and 185-190)

`spawnRocket` reads `Math.random()` three times (spawn x, target pick,
speed); those draws arrive through `Env`.  The target pool is the active
cities followed by the active turrets, and the pick is
`targets[Math.floor(Math.random() * targets.length)]`. -/

structure Env where
  time : ℝ
  randX : ℝ
  randTarget : ℝ
  randSpeed : ℝ

structure Point where
  x : ℝ
  y : ℝ

/-- The function `Math.atan2 y x`, as the argument of the complex number
`x + y i`. -/
def atan2 (y x : ℝ) : ℝ := Complex.arg ⟨x, y⟩

def spawnTargets (st : GameState) : List Point :=
  (st.cities.filter (fun c => c.active)).map (fun c => { x := c.x, y := c.y })
    ++ (st.turrets.filter (fun t => t.active)).map (fun t => { x := t.x, y := t.y })

/-- Spawning: `spawnRocket` is a silent no-op when the target pool is
empty, otherwise
push a fresh rocket toward the picked target.  (A `randTarget` draw in
`[0, 1)` always indexes inside the pool, matching `Math.floor`; out-of-range
draws fall back to the pool's head, a case `Math.random()` never produces.) -/
def spawnRocket (env : Env) (st : GameState) : GameState :=
  let startX := env.randX * GAME_WIDTH
  let startY : ℝ := -20
  let targets := spawnTargets st
  if targets = [] then st
  else
    let target := targets.getD (Int.toNat ⌊env.randTarget * targets.length⌋)
      { x := 0, y := 0 }
    let speed := ROCKET_SPEED_MIN + env.randSpeed * (ROCKET_SPEED_MAX - ROCKET_SPEED_MIN)
    let angle := atan2 (target.y - startY) (target.x - startX)
    { st with rockets := st.rockets ++
        [{ x := startX, y := startY, targetX := target.x, targetY := target.y,
           speed := speed, angle := angle }] }

/-- The spawn threshold `spawnRate = Math.max(500, 2000 - (score / 100) * 100)`;
the `score`
read here is the closure-captured (start-of-step) score. -/
def spawnRate (score : ℤ) : ℝ := max 500 (2000 - ((score : ℝ) / 100) * 100)

/-- Lines 185-190 of `update`: attempt a spawn once the elapsed time since
the last spawn exceeds the spawn rate, and record the attempt time. -/
def spawnPhase (env : Env) (st : GameState) : GameState :=
  if env.time - st.lastSpawnTime > spawnRate st.score then
    { spawnRocket env st with lastSpawnTime := env.time }
  else st

/-! ## Rocket integration and impact (`App.tsx` lines 192-225)

The JavaScript `filter` callback mutates the rocket's position, then on
impact mutates `citiesRef`/`turretsRef` and pushes onto `explosionsRef`;
later rockets in the same pass see those mutations.  This becomes a left
fold threading the surviving rockets, the cities, the turrets and the
explosions. -/

structure RAcc where
  kept : List Rocket
  cities : List City
  turrets : List Turret
  explosions : List Explosion

def integrateRocket (r : Rocket) : Rocket :=
  { r with x := r.x + Real.cos r.angle * r.speed,
           y := r.y + Real.sin r.angle * r.speed }

/-- The impact explosion pushed at lines 213-221. -/
def impactExplosion (x y : ℝ) : Explosion :=
  { x := x, y := y, radius := 0, maxRadius := 20, life := 0, maxLife := 30 }

def hitCity (r : Rocket) (c : City) : City :=
  if c.active = true ∧ |c.x - r.x| < 10 ∧ |c.y - r.y| < 10 then
    { c with active := false }
  else c

def hitTurret (r : Rocket) (t : Turret) : Turret :=
  if t.active = true ∧ |t.x - r.x| < 15 ∧ |t.y - r.y| < 15 then
    { t with active := false }
  else t

/-- One iteration of the rocket `filter` loop. -/
def processRocket (acc : RAcc) (r0 : Rocket) : RAcc :=
  let r := integrateRocket r0
  if euclid r.x r.y r.targetX r.targetY < 5 then
    { kept := acc.kept,
      cities := acc.cities.map (hitCity r),
      turrets := acc.turrets.map (hitTurret r),
      explosions := acc.explosions ++ [impactExplosion r.x r.y] }
  else if r.y < GAME_HEIGHT then { acc with kept := acc.kept ++ [r] }
  else acc

def rocketsPhase (st : GameState) : GameState :=
  let a := st.rockets.foldl processRocket
    { kept := [], cities := st.cities, turrets := st.turrets,
      explosions := st.explosions }
  { st with rockets := a.kept, cities := a.cities, turrets := a.turrets,
            explosions := a.explosions }

/-! ## Missile integration and detonation (`App.tsx` lines 227-247) -/

def integrateMissile (m : Missile) : Missile :=
  let p := m.progress + MISSILE_SPEED / m.distance
  { m with progress := p,
           x := m.startX + (m.targetX - m.startX) * p,
           y := m.startY + (m.targetY - m.startY) * p }

/-- The detonation explosion pushed at lines 235-243. -/
def detonationExplosion (x y : ℝ) : Explosion :=
  { x := x, y := y, radius := 0, maxRadius := EXPLOSION_RADIUS_MAX,
    life := 0, maxLife := EXPLOSION_DURATION }

structure MAcc where
  kept : List Missile
  explosions : List Explosion

def processMissile (acc : MAcc) (m0 : Missile) : MAcc :=
  let m := integrateMissile m0
  if m.progress ≥ 1 then
    { acc with explosions := acc.explosions ++ [detonationExplosion m.targetX m.targetY] }
  else { acc with kept := acc.kept ++ [m] }

def missilesPhase (st : GameState) : GameState :=
  let a := st.missiles.foldl processMissile { kept := [], explosions := st.explosions }
  { st with missiles := a.kept, explosions := a.explosions }

/-! ## Explosion lifecycle (`App.tsx` lines 249-270) -/

/-- The triangular radius envelope of lines 252-257, as a function of the
(already incremented) `life`. -/
def expRadius (maxLife maxRadius life : ℝ) : ℝ :=
  let halfLife := maxLife / 2
  if life ≤ halfLife then (life / halfLife) * maxRadius
  else (1 - (life - halfLife) / halfLife) * maxRadius

/-- The aged explosion: `life` incremented, `radius` recomputed. -/
def ageExplosion (e : Explosion) : Explosion :=
  { e with life := e.life + 1,
           radius := expRadius e.maxLife e.maxRadius (e.life + 1) }

/-- A rocket is caught by an explosion when its Euclidean distance to the
center is strictly below the current radius. -/
def caught (e : Explosion) (r : Rocket) : Prop :=
  euclid r.x r.y e.x e.y < e.radius

structure EAcc where
  kept : List Explosion
  rockets : List Rocket
  score : ℤ

/-- One iteration of the explosion `filter` loop: age the explosion,
destroy the caught rockets (scoring 20 each), keep the explosion while
`life < maxLife`. -/
def processExplosion (acc : EAcc) (e0 : Explosion) : EAcc :=
  let e := ageExplosion e0
  let destroyed := acc.rockets.filter (fun r => caught e r)
  let survivors := acc.rockets.filter (fun r => ¬ caught e r)
  { kept := if e.life < e.maxLife then acc.kept ++ [e] else acc.kept,
    rockets := survivors,
    score := acc.score + POINTS_PER_ROCKET * destroyed.length }

def explosionsPhase (st : GameState) : GameState :=
  let a := st.explosions.foldl processExplosion
    { kept := [], rockets := st.rockets, score := st.score }
  { st with explosions := a.kept, rockets := a.rockets, score := a.score }

/-! ## The per-frame step (`update`, `App.tsx` lines 182-284) -/

/-- The state reached right before the win/loss checks of lines 272-280. -/
def preWinLoss (env : Env) (st : GameState) : GameState :=
  explosionsPhase (missilesPhase (rocketsPhase (spawnPhase env st)))

/-- One full `update` invocation.  `latched` is the closure-captured
`score`: the win check of line 278 reads it, not the score accumulated by
this step's `setScore` updates.  Lines 273-280 run both checks without an
early return, so when both fire the later `setGameState('WON')` wins. -/
def step (env : Env) (st : GameState) : GameState :=
  if st.status ≠ GameStatus.PLAYING then st
  else
    let latched := st.score
    let st4 := preWinLoss env st
    let st5 :=
      if (st4.turrets.filter (fun t => t.active)).length = 0 then
        { st4 with status := GameStatus.LOST }
      else st4
    if latched ≥ WIN_SCORE then { st5 with status := GameStatus.WON } else st5

/-! ## Runs

A run starts from `initGame` and applies player/scheduler commands:
`fire` clicks (`handleCanvasClick` → `fireMissile`), frame ticks
(`update`), and the pause/resume buttons (plain `setGameState` calls). -/

inductive Cmd where
  | fire (targetX targetY : ℝ)
  | tick (env : Env)
  | pause
  | resume

def applyCmd (c : Cmd) (st : GameState) : GameState :=
  match c with
  | Cmd.fire tx ty => fireMissile tx ty st
  | Cmd.tick env => step env st
  | Cmd.pause => { st with status := GameStatus.PAUSED }
  | Cmd.resume => { st with status := GameStatus.PLAYING }

def run (now : ℝ) (cmds : List Cmd) : GameState :=
  cmds.foldl (fun s c => applyCmd c s) (initGame now)

/-- The eligibility test of the firing loop, line 153. -/
def eligible (t : Turret) : Prop := t.active = true ∧ 0 < t.ammo

/-! ## Frame lemmas for the phases -/

theorem spawnRocket_status (env : Env) (st : GameState) :
    (spawnRocket env st).status = st.status := by
  unfold spawnRocket
  dsimp only
  split <;> rfl

theorem spawnRocket_score (env : Env) (st : GameState) :
    (spawnRocket env st).score = st.score := by
  unfold spawnRocket
  dsimp only
  split <;> rfl

theorem spawnRocket_cities (env : Env) (st : GameState) :
    (spawnRocket env st).cities = st.cities := by
  unfold spawnRocket
  dsimp only
  split <;> rfl

theorem spawnRocket_turrets (env : Env) (st : GameState) :
    (spawnRocket env st).turrets = st.turrets := by
  unfold spawnRocket
  dsimp only
  split <;> rfl

theorem spawnRocket_missiles (env : Env) (st : GameState) :
    (spawnRocket env st).missiles = st.missiles := by
  unfold spawnRocket
  dsimp only
  split <;> rfl

theorem spawnRocket_explosions (env : Env) (st : GameState) :
    (spawnRocket env st).explosions = st.explosions := by
  unfold spawnRocket
  dsimp only
  split <;> rfl

theorem spawnPhase_status (env : Env) (st : GameState) :
    (spawnPhase env st).status = st.status := by
  unfold spawnPhase
  split
  · exact spawnRocket_status env st
  · rfl

theorem spawnPhase_score (env : Env) (st : GameState) :
    (spawnPhase env st).score = st.score := by
  unfold spawnPhase
  split
  · exact spawnRocket_score env st
  · rfl

theorem spawnPhase_cities (env : Env) (st : GameState) :
    (spawnPhase env st).cities = st.cities := by
  unfold spawnPhase
  split
  · exact spawnRocket_cities env st
  · rfl

theorem spawnPhase_turrets (env : Env) (st : GameState) :
    (spawnPhase env st).turrets = st.turrets := by
  unfold spawnPhase
  split
  · exact spawnRocket_turrets env st
  · rfl

theorem spawnPhase_missiles (env : Env) (st : GameState) :
    (spawnPhase env st).missiles = st.missiles := by
  unfold spawnPhase
  split
  · exact spawnRocket_missiles env st
  · rfl

theorem rocketsPhase_missiles (st : GameState) :
    (rocketsPhase st).missiles = st.missiles := rfl

theorem rocketsPhase_score (st : GameState) :
    (rocketsPhase st).score = st.score := rfl

theorem rocketsPhase_status (st : GameState) :
    (rocketsPhase st).status = st.status := rfl

theorem missilesPhase_rockets (st : GameState) :
    (missilesPhase st).rockets = st.rockets := rfl

theorem missilesPhase_cities (st : GameState) :
    (missilesPhase st).cities = st.cities := rfl

theorem missilesPhase_turrets (st : GameState) :
    (missilesPhase st).turrets = st.turrets := rfl

theorem missilesPhase_score (st : GameState) :
    (missilesPhase st).score = st.score := rfl

theorem missilesPhase_status (st : GameState) :
    (missilesPhase st).status = st.status := rfl

theorem explosionsPhase_cities (st : GameState) :
    (explosionsPhase st).cities = st.cities := rfl

theorem explosionsPhase_turrets (st : GameState) :
    (explosionsPhase st).turrets = st.turrets := rfl

theorem explosionsPhase_missiles (st : GameState) :
    (explosionsPhase st).missiles = st.missiles := rfl

theorem explosionsPhase_status (st : GameState) :
    (explosionsPhase st).status = st.status := rfl

theorem preWinLoss_status (env : Env) (st : GameState) :
    (preWinLoss env st).status = st.status :=
  spawnPhase_status env st

theorem preWinLoss_turrets (env : Env) (st : GameState) :
    (preWinLoss env st).turrets = (rocketsPhase (spawnPhase env st)).turrets := rfl

theorem preWinLoss_cities (env : Env) (st : GameState) :
    (preWinLoss env st).cities = (rocketsPhase (spawnPhase env st)).cities := rfl

/-- The status produced by one step out of `PLAYING`: the win assignment of
line 279 runs after - and therefore overwrites - the loss assignment of
line 275. -/
theorem step_status (env : Env) (st : GameState)
    (hp : st.status = GameStatus.PLAYING) :
    (step env st).status =
      if WIN_SCORE ≤ st.score then GameStatus.WON
      else if ((preWinLoss env st).turrets.filter (fun t => t.active)).length = 0 then
        GameStatus.LOST
      else GameStatus.PLAYING := by
  unfold step
  rw [if_neg (by simp [hp])]
  by_cases hw : WIN_SCORE ≤ st.score
  · rw [if_pos hw, if_pos (show st.score ≥ WIN_SCORE from hw)]
  · rw [if_neg hw, if_neg (show ¬ st.score ≥ WIN_SCORE from hw)]
    split
    · rfl
    · exact preWinLoss_status env st |>.trans hp

theorem step_not_playing (env : Env) (st : GameState)
    (hp : st.status ≠ GameStatus.PLAYING) : step env st = st := by
  unfold step
  rw [if_pos hp]

theorem step_score (env : Env) (st : GameState)
    (hp : st.status = GameStatus.PLAYING) :
    (step env st).score = (preWinLoss env st).score := by
  unfold step
  rw [if_neg (by simp [hp])]
  dsimp only
  split <;> split <;> rfl

theorem step_turrets (env : Env) (st : GameState)
    (hp : st.status = GameStatus.PLAYING) :
    (step env st).turrets = (rocketsPhase (spawnPhase env st)).turrets := by
  unfold step
  rw [if_neg (by simp [hp])]
  dsimp only
  split <;> split <;> rfl

theorem step_cities (env : Env) (st : GameState)
    (hp : st.status = GameStatus.PLAYING) :
    (step env st).cities = (rocketsPhase (spawnPhase env st)).cities := by
  unfold step
  rw [if_neg (by simp [hp])]
  dsimp only
  split <;> split <;> rfl

/-! ## `Forall₂` utilities -/

theorem forall₂_trans_of {α : Type} {R : α → α → Prop}
    (hR : ∀ a b c, R a b → R b c → R a c) {l₁ l₂ l₃ : List α}
    (h₁ : List.Forall₂ R l₁ l₂) (h₂ : List.Forall₂ R l₂ l₃) :
    List.Forall₂ R l₁ l₃ := by
  rw [List.forall₂_iff_get] at h₁ h₂ ⊢
  refine ⟨h₁.1.trans h₂.1, fun i hi₁ hi₃ => ?_⟩
  exact hR _ _ _ (h₁.2 i hi₁ (h₁.1 ▸ hi₁)) (h₂.2 i (h₁.1 ▸ hi₁) hi₃)

theorem forall₂_set {α : Type} {R : α → α → Prop} (hrefl : ∀ a, R a a)
    (l : List α) (i : ℕ) (x : α)
    (hx : ∀ h : i < l.length, R x (l.get ⟨i, h⟩)) :
    List.Forall₂ R (l.set i x) l := by
  rw [List.forall₂_iff_get]
  refine ⟨l.length_set i x, fun j hj₁ hj₂ => ?_⟩
  simp only [List.get_eq_getElem, List.getElem_set]
  split
  · next hij => subst hij; exact hx hj₂
  · exact hrefl _

/-! ## The firing loop invariant

`PickInvariant tx ts n acc` says: after the selection loop has processed
the first `n` turrets of `ts`, `acc = none` means none of them was
eligible, and `acc = some p` means `p` records an eligible turret of the
processed prefix realising the minimal horizontal distance, the first such
turret in iteration order. -/

def PickInvariant (targetX : ℝ) (ts : List Turret) (n : ℕ) (acc : Option PickAcc) : Prop :=
  (acc = none → ∀ (k : ℕ) (hk : k < ts.length), k < n → ¬ eligible (ts.get ⟨k, hk⟩)) ∧
  (∀ p ∈ acc, ∃ hp : p.idx < ts.length,
      p.idx < n ∧ ts.get ⟨p.idx, hp⟩ = p.turret ∧ eligible p.turret ∧
      p.dist = |p.turret.x - targetX| ∧
      (∀ (k : ℕ) (hk : k < ts.length), k < n → eligible (ts.get ⟨k, hk⟩) →
        p.dist ≤ |(ts.get ⟨k, hk⟩).x - targetX|) ∧
      (∀ (k : ℕ) (hk : k < ts.length), k < p.idx → eligible (ts.get ⟨k, hk⟩) →
        p.dist < |(ts.get ⟨k, hk⟩).x - targetX|))

theorem pickStep_invariant (targetX : ℝ) (ts : List Turret) (n : ℕ) (t : Turret)
    (acc : Option PickAcc) (hn : n < ts.length) (htn : ts.get ⟨n, hn⟩ = t)
    (hinv : PickInvariant targetX ts n acc) :
    PickInvariant targetX ts (n + 1) (pickStep targetX n t acc) := by
  unfold pickStep
  by_cases hc : t.active = true ∧ 0 < t.ammo ∧ ∀ p ∈ acc, |t.x - targetX| < p.dist
  · rw [if_pos hc]
    constructor
    · intro h; simp at h
    · intro p hp
      rw [Option.mem_def, Option.some.injEq] at hp
      subst hp
      refine ⟨hn, Nat.lt_succ_of_le le_rfl, htn, ⟨hc.1, hc.2.1⟩, rfl, ?_, ?_⟩
      · intro k hk hkn he
        rcases Nat.lt_succ_iff_lt_or_eq.1 hkn with hlt | heq
        · cases acc with
          | none => exact absurd he (hinv.1 rfl k hk hlt)
          | some q =>
            obtain ⟨hq, _, _, _, _, hqmin, _⟩ := hinv.2 q rfl
            exact le_of_lt (lt_of_lt_of_le (hc.2.2 q rfl) (hqmin k hk hlt he))
        · subst heq
          have ht' : ts.get ⟨k, hk⟩ = t := htn
          rw [ht']
      · intro k hk hkn he
        cases acc with
        | none => exact absurd he (hinv.1 rfl k hk hkn)
        | some q =>
          obtain ⟨hq, _, _, _, _, hqmin, _⟩ := hinv.2 q rfl
          exact lt_of_lt_of_le (hc.2.2 q rfl) (hqmin k hk hkn he)
  · rw [if_neg hc]
    cases acc with
    | none =>
      refine ⟨?_, ?_⟩
      · intro _ k hk hkn
        rcases Nat.lt_succ_iff_lt_or_eq.1 hkn with hlt | heq
        · exact hinv.1 rfl k hk hlt
        · subst heq
          have ht' : ts.get ⟨k, hk⟩ = t := htn
          rw [ht']
          intro he
          exact hc ⟨he.1, he.2, by intro p hp; simp at hp⟩
      · intro p hp; simp at hp
    | some q =>
      refine ⟨by intro h; simp at h, ?_⟩
      intro p hp
      rw [Option.mem_def, Option.some.injEq] at hp
      subst hp
      obtain ⟨hq, hqn, hgq, hqe, hqd, hqmin, hqstrict⟩ := hinv.2 q rfl
      refine ⟨hq, Nat.lt_succ_of_lt hqn, hgq, hqe, hqd, ?_, hqstrict⟩
      intro k hk hkn he
      rcases Nat.lt_succ_iff_lt_or_eq.1 hkn with hlt | heq
      · exact hqmin k hk hlt he
      · subst heq
        have ht' : ts.get ⟨k, hk⟩ = t := htn
        rw [ht'] at he ⊢
        by_contra hlt2
        rw [not_le] at hlt2
        exact hc ⟨he.1, he.2, by
          intro p' hp'
          rw [Option.mem_def, Option.some.injEq] at hp'
          subst hp'
          exact hlt2⟩

theorem pickBest_invariant (targetX : ℝ) (ts : List Turret) :
    ∀ (rest : List Turret) (n : ℕ) (acc : Option PickAcc),
      ts.drop n = rest → PickInvariant targetX ts n acc →
      PickInvariant targetX ts (n + rest.length) (pickBest targetX rest n acc) := by
  intro rest
  induction rest with
  | nil => intro n acc _ hinv; simpa using hinv
  | cons t rest ih =>
    intro n acc hdrop hinv
    have hn : n < ts.length := by
      by_contra hge
      rw [List.drop_eq_nil_of_le (Nat.le_of_not_lt hge)] at hdrop
      simp at hdrop
    have htn : ts.get ⟨n, hn⟩ = t := by
      have h0 : (ts.drop n)[0]? = some t := by rw [hdrop]; simp
      rw [List.getElem?_drop, Nat.add_zero, List.getElem?_eq_getElem hn] at h0
      simpa [List.get_eq_getElem] using h0
    have hdrop2 : ts.drop (n + 1) = rest := by
      have h2 : List.drop 1 (List.drop n ts) = List.drop (n + 1) ts :=
        List.drop_drop 1 n ts
      rw [hdrop] at h2
      simpa using h2.symm
    have harith : n + (t :: rest).length = (n + 1) + rest.length := by
      simp [List.length_cons]
      omega
    rw [show pickBest targetX (t :: rest) n acc
        = pickBest targetX rest (n + 1) (pickStep targetX n t acc) from rfl, harith]
    exact ih (n + 1) (pickStep targetX n t acc) hdrop2
      (pickStep_invariant targetX ts n t acc hn htn hinv)

theorem pickBest_spec (targetX : ℝ) (ts : List Turret) :
    PickInvariant targetX ts ts.length (pickBest targetX ts 0 none) := by
  have h := pickBest_invariant targetX ts ts 0 none rfl
    ⟨by intro _ k hk hk0; omega, by intro p hp; simp at hp⟩
  simpa using h

theorem fireMissile_of_not_playing (targetX targetY : ℝ) (st : GameState)
    (h : st.status ≠ GameStatus.PLAYING) : fireMissile targetX targetY st = st := by
  unfold fireMissile
  rw [if_pos h]

theorem fireMissile_of_none (targetX targetY : ℝ) (st : GameState)
    (h : pickBest targetX st.turrets 0 none = none) :
    fireMissile targetX targetY st = st := by
  unfold fireMissile
  split
  · rfl
  · rw [h]

theorem fireMissile_of_some (targetX targetY : ℝ) (st : GameState) (p : PickAcc)
    (hst : st.status = GameStatus.PLAYING)
    (h : pickBest targetX st.turrets 0 none = some p) :
    fireMissile targetX targetY st =
      { st with
        turrets := st.turrets.set p.idx { p.turret with ammo := p.turret.ammo - 1 }
        missiles := st.missiles ++
          [{ x := p.turret.x, y := p.turret.y, targetX := targetX, targetY := targetY,
             startX := p.turret.x, startY := p.turret.y, progress := 0,
             distance := euclid targetX targetY p.turret.x p.turret.y }] } := by
  unfold fireMissile
  rw [if_neg (by simp [hst]), h]

/-! ## Ammo bookkeeping across commands -/

/-- What a single `fireMissile` call may do to one turret slot. -/
def FireRel (t' t : Turret) : Prop :=
  t'.maxAmmo = t.maxAmmo ∧ (t'.ammo = t.ammo ∨ (0 < t.ammo ∧ t'.ammo = t.ammo - 1))

/-- The step never touches ammo at all. -/
def AmmoEq (t' t : Turret) : Prop := t'.ammo = t.ammo ∧ t'.maxAmmo = t.maxAmmo

theorem fireMissile_rel (targetX targetY : ℝ) (st : GameState) :
    List.Forall₂ FireRel (fireMissile targetX targetY st).turrets st.turrets := by
  have hrefl : ∀ t : Turret, FireRel t t := fun t => ⟨rfl, Or.inl rfl⟩
  by_cases hst : st.status = GameStatus.PLAYING
  · cases hres : pickBest targetX st.turrets 0 none with
    | none =>
      rw [fireMissile_of_none _ _ _ hres]
      exact List.forall₂_same.2 fun t _ => hrefl t
    | some p =>
      rw [fireMissile_of_some _ _ _ p hst hres]
      obtain ⟨hp, _, hget, helig, _, _, _⟩ :=
        (pickBest_spec targetX st.turrets).2 p (by rw [Option.mem_def, hres])
      refine forall₂_set hrefl _ _ _ ?_
      intro h
      have hg : st.turrets.get ⟨p.idx, h⟩ = p.turret := hget
      rw [hg]
      exact ⟨rfl, Or.inr ⟨helig.2, rfl⟩⟩
  · rw [fireMissile_of_not_playing _ _ _ hst]
    exact List.forall₂_same.2 fun t _ => hrefl t

theorem hitTurret_ammoEq (r : Rocket) (t : Turret) : AmmoEq (hitTurret r t) t := by
  unfold hitTurret AmmoEq
  split <;> exact ⟨rfl, rfl⟩

theorem rocketsFold_turrets (rs : List Rocket) (acc : RAcc) :
    List.Forall₂ AmmoEq ((rs.foldl processRocket acc).turrets) acc.turrets := by
  induction rs generalizing acc with
  | nil => exact List.forall₂_same.2 fun t _ => ⟨rfl, rfl⟩
  | cons r rs ih =>
    have h1 : List.Forall₂ AmmoEq ((processRocket acc r).turrets) acc.turrets := by
      unfold processRocket
      dsimp only
      split
      · exact List.forall₂_map_left_iff.2
          (List.forall₂_same.2 fun t _ => hitTurret_ammoEq _ t)
      · split
        · exact List.forall₂_same.2 fun t _ => ⟨rfl, rfl⟩
        · exact List.forall₂_same.2 fun t _ => ⟨rfl, rfl⟩
    exact forall₂_trans_of (fun a b c hab hbc => ⟨hab.1.trans hbc.1, hab.2.trans hbc.2⟩)
      (ih (processRocket acc r)) h1

theorem step_turrets_ammo (env : Env) (st : GameState) :
    List.Forall₂ AmmoEq (step env st).turrets st.turrets := by
  by_cases hp : st.status = GameStatus.PLAYING
  · rw [step_turrets env st hp]
    have h := rocketsFold_turrets (spawnPhase env st).rockets
      { kept := [], cities := (spawnPhase env st).cities,
        turrets := (spawnPhase env st).turrets,
        explosions := (spawnPhase env st).explosions }
    rw [← spawnPhase_turrets env st]
    exact h
  · rw [step_not_playing env st hp]
    exact List.forall₂_same.2 fun t _ => ⟨rfl, rfl⟩

theorem applyCmd_rel (c : Cmd) (st : GameState) :
    List.Forall₂ FireRel (applyCmd c st).turrets st.turrets := by
  cases c with
  | fire tx ty => exact fireMissile_rel tx ty st
  | tick env => exact (step_turrets_ammo env st).imp fun a b h => ⟨h.2, Or.inl h.1⟩
  | pause => exact List.forall₂_same.2 fun t _ => ⟨rfl, Or.inl rfl⟩
  | resume => exact List.forall₂_same.2 fun t _ => ⟨rfl, Or.inl rfl⟩

/-- The per-state ammo invariant of §3 of the spec. -/
def AmmoInv (st : GameState) : Prop :=
  ∀ t ∈ st.turrets, 0 ≤ t.ammo ∧ t.ammo ≤ t.maxAmmo

theorem AmmoInv_initGame (now : ℝ) : AmmoInv (initGame now) := by
  intro t ht
  simp only [initGame, initTurrets, List.mem_cons, List.not_mem_nil, or_false] at ht
  rcases ht with h | h | h <;> subst h <;>
    exact ⟨by norm_num [TURRET_AMMO_LEFT, TURRET_AMMO_MIDDLE, TURRET_AMMO_RIGHT],
           by norm_num [TURRET_AMMO_LEFT, TURRET_AMMO_MIDDLE, TURRET_AMMO_RIGHT]⟩

theorem AmmoInv_applyCmd (c : Cmd) (st : GameState) (h : AmmoInv st) :
    AmmoInv (applyCmd c st) := by
  intro t' ht'
  obtain ⟨i, hget⟩ := List.mem_iff_get.1 ht'
  have hlen := (applyCmd_rel c st).length_eq
  have hi2 : i.1 < st.turrets.length := hlen ▸ i.2
  have hrel := (applyCmd_rel c st).get i.2 hi2
  rw [show (applyCmd c st).turrets.get ⟨i.1, i.2⟩ = t' from hget] at hrel
  have hb := h (st.turrets.get ⟨i.1, hi2⟩) (List.get_mem _ _ _)
  rcases hrel with ⟨hmax, heq | ⟨hpos, hdec⟩⟩ <;> constructor <;> omega

theorem AmmoInv_foldl (cmds : List Cmd) :
    ∀ st, AmmoInv st → AmmoInv (cmds.foldl (fun s c => applyCmd c s) st) := by
  induction cmds with
  | nil => exact fun st h => h
  | cons c cmds ih => exact fun st h => ih _ (AmmoInv_applyCmd c st h)

/-! ## Scoring in the explosion phase -/

theorem filter_not_length {α : Type} (l : List α) (p : α → Prop) :
    (((l.filter fun a => p a).length : ℤ)
      + ((l.filter fun a => ¬ p a).length : ℤ)) = (l.length : ℤ) := by
  induction l with
  | nil => simp
  | cons a l ih =>
    simp only [decide_not] at ih ⊢
    by_cases h : p a <;> simp [List.filter_cons, h] <;> omega

theorem processExplosion_rockets (acc : EAcc) (e0 : Explosion) :
    (processExplosion acc e0).rockets
      = acc.rockets.filter fun r => ¬ caught (ageExplosion e0) r := rfl

theorem processExplosion_score (acc : EAcc) (e0 : Explosion) :
    (processExplosion acc e0).score
      = acc.score + POINTS_PER_ROCKET
          * (acc.rockets.filter fun r => caught (ageExplosion e0) r).length := rfl

theorem explosionsFold (es : List Explosion) (acc : EAcc) :
    (es.foldl processExplosion acc).rockets.Sublist acc.rockets ∧
    (es.foldl processExplosion acc).score
      = acc.score + POINTS_PER_ROCKET * ((acc.rockets.length : ℤ)
          - ((es.foldl processExplosion acc).rockets.length : ℤ)) := by
  induction es generalizing acc with
  | nil => simp
  | cons e es ih =>
    obtain ⟨ihs, ihsc⟩ := ih (processExplosion acc e)
    have hsub : (processExplosion acc e).rockets.Sublist acc.rockets := by
      rw [processExplosion_rockets]
      exact List.filter_sublist _
    have hgoal : (e :: es).foldl processExplosion acc
        = es.foldl processExplosion (processExplosion acc e) := rfl
    rw [hgoal]
    refine ⟨ihs.trans hsub, ?_⟩
    rw [ihsc, processExplosion_score acc e]
    have hsplit := filter_not_length acc.rockets (fun r => caught (ageExplosion e) r)
    rw [show (processExplosion acc e).rockets
        = acc.rockets.filter (fun r => ¬ caught (ageExplosion e) r)
        from processExplosion_rockets acc e]
    unfold POINTS_PER_ROCKET
    omega

theorem explosionsPhase_facts (st : GameState) :
    (explosionsPhase st).rockets.Sublist st.rockets ∧
    (explosionsPhase st).score
      = st.score + POINTS_PER_ROCKET * ((st.rockets.length : ℤ)
          - ((explosionsPhase st).rockets.length : ℤ)) :=
  explosionsFold st.explosions
    { kept := [], rockets := st.rockets, score := st.score }

theorem explosionsPhase_score_mono (st : GameState) :
    st.score ≤ (explosionsPhase st).score := by
  obtain ⟨hsub, hs⟩ := explosionsPhase_facts st
  have hlen : ((explosionsPhase st).rockets.length : ℤ) ≤ (st.rockets.length : ℤ) := by
    exact_mod_cast hsub.length_le
  rw [hs]
  unfold POINTS_PER_ROCKET
  omega

theorem step_score_mono (env : Env) (st : GameState) :
    st.score ≤ (step env st).score := by
  by_cases hp : st.status = GameStatus.PLAYING
  · rw [step_score env st hp]
    have h := explosionsPhase_score_mono (missilesPhase (rocketsPhase (spawnPhase env st)))
    calc st.score
        = (missilesPhase (rocketsPhase (spawnPhase env st))).score := by
          rw [missilesPhase_score, rocketsPhase_score, spawnPhase_score]
      _ ≤ _ := h
  · rw [step_not_playing env st hp]

/-! ## Phases on empty collections -/

theorem rocketsPhase_of_nil (st : GameState) (h : st.rockets = []) :
    rocketsPhase st = st := by
  cases st with
  | mk sc stt rs ms es cs ts lt =>
    simp only at h
    subst h
    rfl

theorem missilesPhase_of_nil (st : GameState) (h : st.missiles = []) :
    missilesPhase st = st := by
  cases st with
  | mk sc stt rs ms es cs ts lt =>
    simp only at h
    subst h
    rfl

theorem explosionsPhase_of_nil (st : GameState) (h : st.explosions = []) :
    explosionsPhase st = st := by
  cases st with
  | mk sc stt rs ms es cs ts lt =>
    simp only at h
    subst h
    rfl

/-! ## Concrete states used as witnesses -/

def env0 : Env := { time := 0, randX := 0, randTarget := 0, randSpeed := 0 }

def inactiveTurret : Turret :=
  { x := 40, y := 570, active := false, ammo := 0, maxAmmo := 20 }

/-- A tie state: score already at the winning threshold and no active
turret, so both end-of-step conditions of §4.6 hold in the next step. -/
def tieState : GameState :=
  { score := 1000, status := GameStatus.PLAYING, rockets := [], missiles := [],
    explosions := [], cities := [], turrets := [inactiveTurret],
    lastSpawnTime := 0 }

theorem tie_spawnPhase : spawnPhase env0 tieState = tieState := by
  unfold spawnPhase
  apply if_neg
  simp only [env0, tieState, spawnRate]
  push_cast
  exact not_lt.2 (le_trans (by norm_num) (le_max_left _ _))

theorem tie_preWinLoss : preWinLoss env0 tieState = tieState := by
  unfold preWinLoss
  rw [tie_spawnPhase, rocketsPhase_of_nil tieState rfl,
    missilesPhase_of_nil tieState rfl, explosionsPhase_of_nil tieState rfl]

theorem tie_noActive :
    ((preWinLoss env0 tieState).turrets.filter (fun t => t.active)).length = 0 := by
  rw [tie_preWinLoss]
  simp [tieState, inactiveTurret]

def turretNear : Turret := { x := 40, y := 570, active := true, ammo := 20, maxAmmo := 20 }

def turretFar : Turret := { x := 400, y := 570, active := true, ammo := 40, maxAmmo := 40 }

def fireState : GameState :=
  { score := 0, status := GameStatus.PLAYING, rockets := [], missiles := [],
    explosions := [], cities := [], turrets := [turretNear, turretFar],
    lastSpawnTime := 0 }

/-! ## A step in which a rocket kill lifts the committed score to 1000

One live turret, score 980, one rocket sitting inside an explosion that is
one frame old: the explosion phase awards 20 points, but the win check of
that same step still reads the closure-captured 980. -/

def activeTurretW : Turret :=
  { x := 40, y := 570, active := true, ammo := 20, maxAmmo := 20 }

def hoverRocket : Rocket :=
  { x := 100, y := 100, targetX := 100, targetY := 500, speed := 0, angle := 0 }

def youngExplosion : Explosion :=
  { x := 100, y := 100, radius := 0, maxRadius := 20, life := 0, maxLife := 30 }

def nearWinState : GameState :=
  { score := 980, status := GameStatus.PLAYING, rockets := [hoverRocket],
    missiles := [], explosions := [youngExplosion], cities := [],
    turrets := [activeTurretW], lastSpawnTime := 0 }

theorem nearWin_spawnPhase : spawnPhase env0 nearWinState = nearWinState := by
  unfold spawnPhase
  apply if_neg
  simp only [env0, nearWinState, spawnRate]
  push_cast
  exact not_lt.2 (le_trans (by norm_num) (le_max_left _ _))

theorem integrate_hoverRocket : integrateRocket hoverRocket = hoverRocket := by
  simp [integrateRocket, hoverRocket]

theorem hoverRocket_keeps :
    processRocket
      { kept := [], cities := nearWinState.cities,
        turrets := nearWinState.turrets, explosions := nearWinState.explosions }
      hoverRocket
    = { kept := [hoverRocket], cities := nearWinState.cities,
        turrets := nearWinState.turrets, explosions := nearWinState.explosions } := by
  unfold processRocket
  dsimp only
  rw [integrate_hoverRocket]
  have hno : ¬ euclid hoverRocket.x hoverRocket.y hoverRocket.targetX
      hoverRocket.targetY < 5 := by
    unfold euclid
    simp only [hoverRocket]
    rw [show ((100:ℝ) - 100) ^ 2 + ((100:ℝ) - 500) ^ 2 = 160000 from by norm_num,
      Real.sqrt_lt' (by norm_num : (0:ℝ) < 5)]
    norm_num
  have hy : hoverRocket.y < GAME_HEIGHT := by norm_num [hoverRocket, GAME_HEIGHT]
  rw [if_neg hno, if_pos hy]
  rfl

theorem nearWin_rocketsPhase : rocketsPhase nearWinState = nearWinState := by
  unfold rocketsPhase
  dsimp only
  rw [show nearWinState.rockets = [hoverRocket] from rfl, List.foldl_cons,
    hoverRocket_keeps, List.foldl_nil]
  rfl

def agedExplosion : Explosion :=
  { x := 100, y := 100, radius := 4 / 3, maxRadius := 20, life := 1, maxLife := 30 }

theorem age_youngExplosion : ageExplosion youngExplosion = agedExplosion := by
  unfold ageExplosion agedExplosion
  simp only [youngExplosion]
  have hr : expRadius (30:ℝ) 20 (0 + 1) = 4 / 3 := by
    unfold expRadius
    dsimp only
    rw [if_pos (by norm_num : (0:ℝ) + 1 ≤ 30 / 2)]
    norm_num
  rw [hr]
  norm_num

theorem hoverRocket_caught : caught agedExplosion hoverRocket := by
  unfold caught euclid
  simp only [agedExplosion, hoverRocket]
  rw [show ((100:ℝ) - 100) ^ 2 + ((100:ℝ) - 100) ^ 2 = 0 from by norm_num,
    Real.sqrt_zero]
  norm_num

theorem youngExplosion_scores :
    processExplosion { kept := [], rockets := [hoverRocket], score := 980 }
      youngExplosion
    = { kept := [agedExplosion], rockets := [], score := 1000 } := by
  unfold processExplosion
  dsimp only
  rw [age_youngExplosion]
  have hkept : (if agedExplosion.life < youngExplosion.maxLife
      then ([] : List Explosion) ++ [agedExplosion] else []) = [agedExplosion] := by
    rw [if_pos (by norm_num [agedExplosion, youngExplosion])]
    rfl
  have hfilter1 : List.filter (fun r => caught agedExplosion r) [hoverRocket]
      = [hoverRocket] := by
    simp [List.filter_cons, hoverRocket_caught]
  have hfilter2 : List.filter (fun r => ¬ caught agedExplosion r) [hoverRocket]
      = [] := by
    simp [List.filter_cons, hoverRocket_caught]
  rw [hfilter1, hfilter2]
  simp only [List.length_cons, List.length_nil]
  norm_num [POINTS_PER_ROCKET, agedExplosion, youngExplosion]

theorem nearWin_explosionsPhase :
    explosionsPhase nearWinState
      = { nearWinState with
          explosions := [agedExplosion]
          rockets := []
          score := 1000 } := by
  unfold explosionsPhase
  dsimp only
  rw [show nearWinState.explosions = [youngExplosion] from rfl,
    show nearWinState.rockets = [hoverRocket] from rfl,
    show nearWinState.score = (980:ℤ) from rfl,
    List.foldl_cons, youngExplosion_scores, List.foldl_nil]

/-! ## Further witness inputs -/

def impactRocket : Rocket :=
  { x := 100, y := 100, targetX := 100, targetY := 100, speed := 0, angle := 0 }

def boxCity : City := { x := 105, y := 95, active := true }

def raccW : RAcc := { kept := [], cities := [boxCity], turrets := [], explosions := [] }

def eaccW : EAcc := { kept := [], rockets := [], score := 0 }

def expW : Explosion :=
  { x := 0, y := 0, radius := 0, maxRadius := 46, life := 0, maxLife := 60 }

/-! ## The zero-distance missile (background for the §4.3/§7 edge case)

Firing exactly at the nearest turret's own position creates a missile
whose `distance` is 0; `integrateMissile` then divides `MISSILE_SPEED` by
that zero distance with no guard.  (What the IEEE-754 original does with
`5.5 / 0` - produce `Infinity` - has no counterpart in the real-number
embedding, where division by zero yields 0.) -/

theorem pickBest_fireState :
    pickBest 40 fireState.turrets 0 none
      = some { idx := 0, turret := turretNear, dist := |turretNear.x - 40| } := by
  show pickBest 40 [turretNear, turretFar] 0 none = _
  have h1 : pickStep 40 0 turretNear none
      = some { idx := 0, turret := turretNear, dist := |turretNear.x - 40| } := by
    unfold pickStep
    rw [if_pos ⟨rfl, by norm_num [turretNear], by intro p hp; simp at hp⟩]
  have h2 : pickStep 40 1 turretFar
        (some { idx := 0, turret := turretNear, dist := |turretNear.x - 40| })
      = some { idx := 0, turret := turretNear, dist := |turretNear.x - 40| } := by
    unfold pickStep
    apply if_neg
    rintro ⟨-, -, h3⟩
    have h4 := h3 _ rfl
    norm_num [turretNear, turretFar] at h4
  show pickBest 40 [turretFar] 1 (pickStep 40 0 turretNear none) = _
  rw [h1]
  show pickBest 40 [] 2 (pickStep 40 1 turretFar _) = _
  rw [h2]
  rfl

theorem zero_distance_missile :
    (fireMissile 40 570 fireState).missiles
      = [{ x := turretNear.x, y := turretNear.y, targetX := 40, targetY := 570,
           startX := turretNear.x, startY := turretNear.y, progress := 0,
           distance := 0 }] ∧
    ∀ m ∈ (fireMissile 40 570 fireState).missiles,
      (integrateMissile m).progress = m.progress + MISSILE_SPEED / 0 := by
  have hfire := fireMissile_of_some 40 570 fireState
    { idx := 0, turret := turretNear, dist := |turretNear.x - 40| } rfl
    pickBest_fireState
  have hdist : euclid 40 570 turretNear.x turretNear.y = 0 := by
    unfold euclid
    norm_num [turretNear, Real.sqrt_zero]
  have hm : (fireMissile 40 570 fireState).missiles
      = [{ x := turretNear.x, y := turretNear.y, targetX := 40, targetY := 570,
           startX := turretNear.x, startY := turretNear.y, progress := 0,
           distance := 0 }] := by
    rw [hfire]
    simp only [hdist]
    rfl
  refine ⟨hm, ?_⟩
  intro m hmem
  rw [hm] at hmem
  simp only [List.mem_cons, List.not_mem_nil, or_false] at hmem
  subst hmem
  rfl

/-! ## Claim theorems -/

/-- C1 counterexample: in `tieState` both end-of-step conditions hold at
once - the active-turret list is empty and the committed score is at
`WIN_SCORE` - yet the step ends in `WON`, not `LOST`: lines 272-280 run
both checks with no early return, so the win assignment, executed second,
overwrites the loss assignment. -/
theorem lossWin_tie_counterexample :
    tieState.status = GameStatus.PLAYING ∧
    ((preWinLoss env0 tieState).turrets.filter (fun t => t.active)).length = 0 ∧
    WIN_SCORE ≤ tieState.score ∧
    (step env0 tieState).status = GameStatus.WON ∧
    (step env0 tieState).status ≠ GameStatus.LOST := by
  have hw : WIN_SCORE ≤ tieState.score := by norm_num [WIN_SCORE, tieState]
  have hs : (step env0 tieState).status = GameStatus.WON := by
    rw [step_status env0 tieState rfl, if_pos hw]
  exact ⟨rfl, tie_noActive, hw, hs, by rw [hs]; simp⟩

/-- C1 amended: when a `PLAYING` step ends with no active turret while the
committed score is already `≥ WIN_SCORE`, the resulting status is `WON`:
the loss check is indeed evaluated first, but both status writes execute
and the win write lands last. -/
theorem lossWin_tie_amended (env : Env) (st : GameState)
    (hp : st.status = GameStatus.PLAYING)
    (_hl : ((preWinLoss env st).turrets.filter (fun t => t.active)).length = 0)
    (hw : WIN_SCORE ≤ st.score) :
    (step env st).status = GameStatus.WON := by
  rw [step_status env st hp, if_pos hw]

/-- Witness for the amended C1 at the concrete tie state. -/
theorem lossWin_tie_amended_witness :
    (step env0 tieState).status = GameStatus.WON :=
  lossWin_tie_amended env0 tieState rfl tie_noActive
    (by norm_num [WIN_SCORE, tieState])

/-- C2 counterexample: in `nearWinState` a rocket kill raises the score to
exactly 1000 during the step, yet the step does not transition to `WON`
(the win check reads the score captured before the step, 980), refuting
the claim that the same-step points count. -/
theorem win_transition_counterexample :
    nearWinState.status = GameStatus.PLAYING ∧
    (step env0 nearWinState).score = 1000 ∧
    WIN_SCORE ≤ (step env0 nearWinState).score ∧
    (step env0 nearWinState).status = GameStatus.PLAYING ∧
    (step env0 nearWinState).status ≠ GameStatus.WON := by
  have hsc : (step env0 nearWinState).score = 1000 := by
    rw [step_score env0 nearWinState rfl]
    show (explosionsPhase (missilesPhase (rocketsPhase
      (spawnPhase env0 nearWinState)))).score = 1000
    rw [nearWin_spawnPhase, nearWin_rocketsPhase,
      missilesPhase_of_nil nearWinState rfl, nearWin_explosionsPhase]
  have hnl : ¬ ((preWinLoss env0 nearWinState).turrets.filter
      (fun t => t.active)).length = 0 := by
    rw [preWinLoss_turrets, nearWin_spawnPhase, nearWin_rocketsPhase]
    simp [nearWinState, activeTurretW]
  have hnw : ¬ WIN_SCORE ≤ nearWinState.score := by
    norm_num [WIN_SCORE, nearWinState]
  have hst : (step env0 nearWinState).status = GameStatus.PLAYING := by
    rw [step_status env0 nearWinState rfl, if_neg hnw, if_neg hnl]
  exact ⟨rfl, hsc, by rw [hsc]; norm_num [WIN_SCORE], hst, by rw [hst]; simp⟩

/-- C2 amended: a `PLAYING` step ends in `WON` exactly when the score
committed at the start of the step (excluding points awarded during that
same step, which only the next step's check sees) is `≥ WIN_SCORE`. -/
theorem win_transition_amended (env : Env) (st : GameState)
    (hp : st.status = GameStatus.PLAYING) :
    ((step env st).status = GameStatus.WON ↔ WIN_SCORE ≤ st.score) := by
  rw [step_status env st hp]
  by_cases hw : WIN_SCORE ≤ st.score
  · rw [if_pos hw]
    simp [hw]
  · rw [if_neg hw]
    constructor
    · intro h
      split at h <;> simp_all
    · intro h
      exact absurd h hw

/-- Witness for the amended C2 at the concrete tie state. -/
theorem win_transition_amended_witness :
    ((step env0 tieState).status = GameStatus.WON ↔ WIN_SCORE ≤ tieState.score) :=
  win_transition_amended env0 tieState rfl

/-- C3: a `fire(targetX, targetY)` call is a complete no-op when the status
is not `PLAYING` or when no turret is both active and has ammo; otherwise
it serves the eligible turret minimising `|turret.x - targetX|` (first
minimal in iteration order), decrements exactly that turret's ammo by one,
and appends one missile starting at the turret's position, targeting
`(targetX, targetY)`, with Euclidean start-to-target `distance` and
`progress = 0`; nothing else changes. -/
theorem fireMissile_correct (targetX targetY : ℝ) (st : GameState) :
    (st.status ≠ GameStatus.PLAYING → fireMissile targetX targetY st = st) ∧
    ((∀ t ∈ st.turrets, ¬ eligible t) → fireMissile targetX targetY st = st) ∧
    (st.status = GameStatus.PLAYING → ∀ t0 ∈ st.turrets, eligible t0 →
      ∃ (j : ℕ) (hj : j < st.turrets.length),
        eligible (st.turrets.get ⟨j, hj⟩) ∧
        (∀ (k : ℕ) (hk : k < st.turrets.length),
          eligible (st.turrets.get ⟨k, hk⟩) →
          |(st.turrets.get ⟨j, hj⟩).x - targetX|
            ≤ |(st.turrets.get ⟨k, hk⟩).x - targetX|) ∧
        (∀ (k : ℕ) (hk : k < st.turrets.length), k < j →
          eligible (st.turrets.get ⟨k, hk⟩) →
          |(st.turrets.get ⟨j, hj⟩).x - targetX|
            < |(st.turrets.get ⟨k, hk⟩).x - targetX|) ∧
        fireMissile targetX targetY st =
          { st with
            turrets := st.turrets.set j
              { st.turrets.get ⟨j, hj⟩ with
                ammo := (st.turrets.get ⟨j, hj⟩).ammo - 1 }
            missiles := st.missiles ++
              [{ x := (st.turrets.get ⟨j, hj⟩).x, y := (st.turrets.get ⟨j, hj⟩).y,
                 targetX := targetX, targetY := targetY,
                 startX := (st.turrets.get ⟨j, hj⟩).x,
                 startY := (st.turrets.get ⟨j, hj⟩).y, progress := 0,
                 distance := euclid targetX targetY (st.turrets.get ⟨j, hj⟩).x
                   (st.turrets.get ⟨j, hj⟩).y }] }) := by
  refine ⟨fireMissile_of_not_playing targetX targetY st, ?_, ?_⟩
  · intro hne
    cases hres : pickBest targetX st.turrets 0 none with
    | none => exact fireMissile_of_none targetX targetY st hres
    | some p =>
      exfalso
      obtain ⟨hp, _, hget, helig, _, _, _⟩ :=
        (pickBest_spec targetX st.turrets).2 p (by rw [Option.mem_def, hres])
      exact hne p.turret (by rw [← hget]; exact List.get_mem _ _ _) helig
  · intro hst t0 ht0 helig0
    cases hres : pickBest targetX st.turrets 0 none with
    | none =>
      exfalso
      obtain ⟨n, hget⟩ := List.mem_iff_get.1 ht0
      have hne : eligible (st.turrets.get ⟨n.1, n.2⟩) := by
        have hnn : st.turrets.get ⟨n.1, n.2⟩ = t0 := hget
        rw [hnn]; exact helig0
      exact (pickBest_spec targetX st.turrets).1 hres n.1 n.2 n.2 hne
    | some p =>
      obtain ⟨hp, _, hget, helig, hdist, hmin, hstrict⟩ :=
        (pickBest_spec targetX st.turrets).2 p (by rw [Option.mem_def, hres])
      refine ⟨p.idx, hp, ?_, ?_, ?_, ?_⟩
      · rw [hget]; exact helig
      · intro k hk hke
        rw [hget, ← hdist]
        exact hmin k hk hk hke
      · intro k hk hkj hke
        rw [hget, ← hdist]
        exact hstrict k hk hkj hke
      · rw [fireMissile_of_some targetX targetY st p hst hres, hget]

/-- Witness for C3: with two eligible turrets at x = 40 and x = 400 and a
click at x = 100, the conclusion of `fireMissile_correct` holds with every
hypothesis discharged. -/
theorem fireMissile_correct_witness :
    ∃ (j : ℕ) (hj : j < fireState.turrets.length),
      eligible (fireState.turrets.get ⟨j, hj⟩) ∧
      (∀ (k : ℕ) (hk : k < fireState.turrets.length),
        eligible (fireState.turrets.get ⟨k, hk⟩) →
        |(fireState.turrets.get ⟨j, hj⟩).x - 100|
          ≤ |(fireState.turrets.get ⟨k, hk⟩).x - 100|) ∧
      (∀ (k : ℕ) (hk : k < fireState.turrets.length), k < j →
        eligible (fireState.turrets.get ⟨k, hk⟩) →
        |(fireState.turrets.get ⟨j, hj⟩).x - 100|
          < |(fireState.turrets.get ⟨k, hk⟩).x - 100|) ∧
      fireMissile 100 200 fireState =
        { fireState with
          turrets := fireState.turrets.set j
            { fireState.turrets.get ⟨j, hj⟩ with
              ammo := (fireState.turrets.get ⟨j, hj⟩).ammo - 1 }
          missiles := fireState.missiles ++
            [{ x := (fireState.turrets.get ⟨j, hj⟩).x,
               y := (fireState.turrets.get ⟨j, hj⟩).y,
               targetX := 100, targetY := 200,
               startX := (fireState.turrets.get ⟨j, hj⟩).x,
               startY := (fireState.turrets.get ⟨j, hj⟩).y, progress := 0,
               distance := euclid 100 200 (fireState.turrets.get ⟨j, hj⟩).x
                 (fireState.turrets.get ⟨j, hj⟩).y }] } :=
  (fireMissile_correct 100 200 fireState).2.2 rfl turretNear
    (List.mem_cons_self turretNear [turretFar]) ⟨rfl, by norm_num [turretNear]⟩

/-- C4: along any run from `initGame`, every turret's ammo stays in
`[0, maxAmmo]`, and no command ever increases a turret's ammo or changes
its capacity. -/
theorem ammo_invariant (now : ℝ) (cmds : List Cmd) (c : Cmd) :
    (∀ t ∈ (run now cmds).turrets, 0 ≤ t.ammo ∧ t.ammo ≤ t.maxAmmo) ∧
    List.Forall₂ (fun t' t => t'.ammo ≤ t.ammo ∧ t'.maxAmmo = t.maxAmmo)
      (applyCmd c (run now cmds)).turrets (run now cmds).turrets := by
  refine ⟨AmmoInv_foldl cmds (initGame now) (AmmoInv_initGame now), ?_⟩
  exact (applyCmd_rel c (run now cmds)).imp fun a b h =>
    ⟨by rcases h.2 with he | ⟨hpos, he⟩ <;> omega, h.1⟩

/-- Witness for C4 at the empty run followed by a pause command. -/
theorem ammo_invariant_witness :
    (∀ t ∈ (run 0 []).turrets, 0 ≤ t.ammo ∧ t.ammo ≤ t.maxAmmo) ∧
    List.Forall₂ (fun t' t => t'.ammo ≤ t.ammo ∧ t'.maxAmmo = t.maxAmmo)
      (applyCmd Cmd.pause (run 0 [])).turrets (run 0 []).turrets :=
  ammo_invariant 0 [] Cmd.pause

/-- C7: each explosion destroys exactly the rockets strictly inside its
current radius, scoring `POINTS_PER_ROCKET` per rocket; rockets surviving
the whole pass form a sublist (so no rocket is counted twice), the phase
adds exactly 20 points per removed rocket, and the score never decreases,
neither in the phase nor across a whole step. -/
theorem explosion_scoring_correct (st : GameState) (env : Env) (acc : EAcc)
    (e0 : Explosion) :
    ((processExplosion acc e0).rockets
        = acc.rockets.filter fun r => ¬ caught (ageExplosion e0) r) ∧
    ((processExplosion acc e0).score
        = acc.score + POINTS_PER_ROCKET
            * (acc.rockets.filter fun r => caught (ageExplosion e0) r).length) ∧
    (explosionsPhase st).rockets.Sublist st.rockets ∧
    ((explosionsPhase st).score
        = st.score + POINTS_PER_ROCKET * ((st.rockets.length : ℤ)
            - ((explosionsPhase st).rockets.length : ℤ))) ∧
    st.score ≤ (explosionsPhase st).score ∧
    st.score ≤ (step env st).score :=
  ⟨processExplosion_rockets acc e0, processExplosion_score acc e0,
   (explosionsPhase_facts st).1, (explosionsPhase_facts st).2,
   explosionsPhase_score_mono st, step_score_mono env st⟩

theorem integrateRocket_targetX (r : Rocket) :
    (integrateRocket r).targetX = r.targetX := rfl

theorem integrateRocket_targetY (r : Rocket) :
    (integrateRocket r).targetY = r.targetY := rfl

/-- C6: for each rocket processed in a step, after integration: within 5
units of its target the rocket is removed, an impact explosion with
`maxRadius 20` / `maxLife 30` appears at the rocket's position, active
cities within 10 units on both axes and active turrets within 15 units are
deactivated (axis-aligned box tests, positions and ammo untouched);
otherwise a rocket at `y ≥ GAME_HEIGHT` is dropped with no other change,
and any other rocket is simply kept. -/
theorem rocket_impact_correct (acc : RAcc) (r0 : Rocket) :
    (euclid (integrateRocket r0).x (integrateRocket r0).y r0.targetX r0.targetY < 5 →
      (processRocket acc r0).kept = acc.kept ∧
      (processRocket acc r0).explosions = acc.explosions ++
        [{ x := (integrateRocket r0).x, y := (integrateRocket r0).y, radius := 0,
           maxRadius := 20, life := 0, maxLife := 30 }] ∧
      List.Forall₂ (fun c' c => c'.x = c.x ∧ c'.y = c.y ∧
          (c'.active = true ↔ (c.active = true ∧
            ¬ (|c.x - (integrateRocket r0).x| < 10
                ∧ |c.y - (integrateRocket r0).y| < 10))))
        (processRocket acc r0).cities acc.cities ∧
      List.Forall₂ (fun t' t => t'.x = t.x ∧ t'.y = t.y ∧ t'.ammo = t.ammo ∧
          t'.maxAmmo = t.maxAmmo ∧
          (t'.active = true ↔ (t.active = true ∧
            ¬ (|t.x - (integrateRocket r0).x| < 15
                ∧ |t.y - (integrateRocket r0).y| < 15))))
        (processRocket acc r0).turrets acc.turrets) ∧
    (¬ euclid (integrateRocket r0).x (integrateRocket r0).y r0.targetX r0.targetY < 5 →
      GAME_HEIGHT ≤ (integrateRocket r0).y → processRocket acc r0 = acc) ∧
    (¬ euclid (integrateRocket r0).x (integrateRocket r0).y r0.targetX r0.targetY < 5 →
      (integrateRocket r0).y < GAME_HEIGHT →
      processRocket acc r0 = { acc with kept := acc.kept ++ [integrateRocket r0] }) := by
  refine ⟨?_, ?_, ?_⟩
  · intro h
    have hP : processRocket acc r0 =
        { kept := acc.kept,
          cities := acc.cities.map (hitCity (integrateRocket r0)),
          turrets := acc.turrets.map (hitTurret (integrateRocket r0)),
          explosions := acc.explosions ++
            [impactExplosion (integrateRocket r0).x (integrateRocket r0).y] } := by
      unfold processRocket
      dsimp only
      rw [integrateRocket_targetX, integrateRocket_targetY, if_pos h]
    refine ⟨by rw [hP], by rw [hP]; rfl, ?_, ?_⟩
    · rw [hP]
      refine List.forall₂_map_left_iff.2 (List.forall₂_same.2 fun c _ => ?_)
      unfold hitCity
      by_cases hc : c.active = true ∧ |c.x - (integrateRocket r0).x| < 10
          ∧ |c.y - (integrateRocket r0).y| < 10
      · rw [if_pos hc]
        refine ⟨rfl, rfl, ?_⟩
        simp only [show ({ c with active := false } : City).active = false from rfl]
        constructor
        · intro habs; simp at habs
        · rintro ⟨ha, hbox⟩; exact absurd ⟨hc.2.1, hc.2.2⟩ hbox
      · rw [if_neg hc]
        refine ⟨rfl, rfl, ?_⟩
        constructor
        · intro ha; exact ⟨ha, fun hbox => hc ⟨ha, hbox.1, hbox.2⟩⟩
        · exact And.left
    · rw [hP]
      refine List.forall₂_map_left_iff.2 (List.forall₂_same.2 fun t _ => ?_)
      unfold hitTurret
      by_cases ht : t.active = true ∧ |t.x - (integrateRocket r0).x| < 15
          ∧ |t.y - (integrateRocket r0).y| < 15
      · rw [if_pos ht]
        refine ⟨rfl, rfl, rfl, rfl, ?_⟩
        simp only [show ({ t with active := false } : Turret).active = false from rfl]
        constructor
        · intro habs; simp at habs
        · rintro ⟨ha, hbox⟩; exact absurd ⟨ht.2.1, ht.2.2⟩ hbox
      · rw [if_neg ht]
        refine ⟨rfl, rfl, rfl, rfl, ?_⟩
        constructor
        · intro ha; exact ⟨ha, fun hbox => ht ⟨ha, hbox.1, hbox.2⟩⟩
        · exact And.left
  · intro h hy
    unfold processRocket
    dsimp only
    rw [integrateRocket_targetX, integrateRocket_targetY, if_neg h,
      if_neg (not_lt.2 hy)]
  · intro h hy
    unfold processRocket
    dsimp only
    rw [integrateRocket_targetX, integrateRocket_targetY, if_neg h, if_pos hy]

/-- C8: the explosion-lifecycle step increments `life` by one, recomputes
the radius by the triangular envelope, and keeps the explosion exactly
while `life < maxLife`; the envelope is 0 at life 0, `maxRadius` at
`maxLife / 2`, and 0 again at `maxLife`. -/
theorem explosion_envelope_correct (acc : EAcc) (e0 : Explosion) (m R : ℝ)
    (hm : 0 < m) :
    (ageExplosion e0).life = e0.life + 1 ∧
    (ageExplosion e0).radius = expRadius e0.maxLife e0.maxRadius (e0.life + 1) ∧
    ((processExplosion acc e0).kept =
      if (ageExplosion e0).life < e0.maxLife then acc.kept ++ [ageExplosion e0]
      else acc.kept) ∧
    expRadius m R 0 = 0 ∧ expRadius m R (m / 2) = R ∧ expRadius m R m = 0 := by
  refine ⟨rfl, rfl, rfl, ?_, ?_, ?_⟩
  · unfold expRadius
    dsimp only
    rw [if_pos (by linarith : (0 : ℝ) ≤ m / 2)]
    simp
  · unfold expRadius
    dsimp only
    rw [if_pos le_rfl, div_self (ne_of_gt (by linarith : (0 : ℝ) < m / 2))]
    simp
  · unfold expRadius
    dsimp only
    rw [if_neg (not_le.2 (by linarith : m / 2 < m))]
    rw [show m - m / 2 = m / 2 from by ring,
      div_self (ne_of_gt (by linarith : (0 : ℝ) < m / 2))]
    ring

/-- C9: a spawn is attempted exactly when the elapsed time since the last
spawn exceeds `spawnRate = max 500 (2000 - (score / 100) * 100)`; with no
active city and no active turret the attempt creates nothing; the rate is
floored at 500 ms and shrinks monotonically with the score. -/
theorem spawn_policy_correct (env : Env) (st : GameState) (s1 s2 : ℤ)
    (h12 : s1 ≤ s2) :
    (¬ env.time - st.lastSpawnTime > spawnRate st.score → spawnPhase env st = st) ∧
    (env.time - st.lastSpawnTime > spawnRate st.score →
      spawnPhase env st = { spawnRocket env st with lastSpawnTime := env.time }) ∧
    ((∀ c ∈ st.cities, c.active = false) → (∀ t ∈ st.turrets, t.active = false) →
      spawnRocket env st = st) ∧
    500 ≤ spawnRate st.score ∧
    spawnRate s2 ≤ spawnRate s1 := by
  refine ⟨?_, ?_, ?_, le_max_left _ _, ?_⟩
  · intro h
    unfold spawnPhase
    rw [if_neg h]
  · intro h
    unfold spawnPhase
    rw [if_pos h]
  · intro hc ht
    have htargets : spawnTargets st = [] := by
      unfold spawnTargets
      rw [List.filter_eq_nil_iff.2 (by intro c hcm; simp [hc c hcm]),
        List.filter_eq_nil_iff.2 (by intro t htm; simp [ht t htm])]
      rfl
    unfold spawnRocket
    dsimp only
    rw [if_pos htargets]
  · unfold spawnRate
    have hcast : ((s1 : ℝ)) ≤ (s2 : ℝ) := by exact_mod_cast h12
    apply max_le_max le_rfl
    rw [div_mul_cancel₀ ((s1 : ℝ)) (by norm_num : (100 : ℝ) ≠ 0),
      div_mul_cancel₀ ((s2 : ℝ)) (by norm_num : (100 : ℝ) ≠ 0)]
    linarith

/-- C10: the explosion phase touches only explosions, rockets and the
score - never cities, turrets or missiles; across a whole step, cities
and turrets change only in the rocket-impact phase (the spawn phase leaves
them alone and nothing after the rocket phase does either). -/
theorem explosion_frame_correct (env : Env) (st : GameState)
    (hp : st.status = GameStatus.PLAYING) :
    (explosionsPhase st).cities = st.cities ∧
    (explosionsPhase st).turrets = st.turrets ∧
    (explosionsPhase st).missiles = st.missiles ∧
    (spawnPhase env st).cities = st.cities ∧
    (spawnPhase env st).turrets = st.turrets ∧
    (step env st).cities = (rocketsPhase (spawnPhase env st)).cities ∧
    (step env st).turrets = (rocketsPhase (spawnPhase env st)).turrets :=
  ⟨explosionsPhase_cities st, explosionsPhase_turrets st, explosionsPhase_missiles st,
   spawnPhase_cities env st, spawnPhase_turrets env st,
   step_cities env st hp, step_turrets env st hp⟩

/-- Witness for C6: a rocket landing at (100, 100) with a city at
(105, 95) inside the 10-unit box; the impact hypothesis is discharged by
computing the zero travel distance. -/
theorem rocket_impact_correct_witness :
    (processRocket raccW impactRocket).kept = raccW.kept ∧
    (processRocket raccW impactRocket).explosions = raccW.explosions ++
      [{ x := (integrateRocket impactRocket).x, y := (integrateRocket impactRocket).y,
         radius := 0, maxRadius := 20, life := 0, maxLife := 30 }] ∧
    List.Forall₂ (fun c' c => c'.x = c.x ∧ c'.y = c.y ∧
        (c'.active = true ↔ (c.active = true ∧
          ¬ (|c.x - (integrateRocket impactRocket).x| < 10
              ∧ |c.y - (integrateRocket impactRocket).y| < 10))))
      (processRocket raccW impactRocket).cities raccW.cities ∧
    List.Forall₂ (fun t' t => t'.x = t.x ∧ t'.y = t.y ∧ t'.ammo = t.ammo ∧
        t'.maxAmmo = t.maxAmmo ∧
        (t'.active = true ↔ (t.active = true ∧
          ¬ (|t.x - (integrateRocket impactRocket).x| < 15
              ∧ |t.y - (integrateRocket impactRocket).y| < 15))))
      (processRocket raccW impactRocket).turrets raccW.turrets :=
  (rocket_impact_correct raccW impactRocket).1 (by
    unfold euclid
    rw [show (integrateRocket impactRocket).x = 100 from by
          simp [integrateRocket, impactRocket],
        show (integrateRocket impactRocket).y = 100 from by
          simp [integrateRocket, impactRocket]]
    norm_num [impactRocket, Real.sqrt_zero])

/-- Witness for C8 at an explosion with the detonation parameters
`maxRadius 46`, `maxLife 60`. -/
theorem explosion_envelope_correct_witness :
    (ageExplosion expW).life = expW.life + 1 ∧
    (ageExplosion expW).radius = expRadius expW.maxLife expW.maxRadius (expW.life + 1) ∧
    ((processExplosion eaccW expW).kept =
      if (ageExplosion expW).life < expW.maxLife then eaccW.kept ++ [ageExplosion expW]
      else eaccW.kept) ∧
    expRadius 60 46 0 = 0 ∧ expRadius 60 46 (60 / 2) = 46 ∧ expRadius 60 46 60 = 0 :=
  explosion_envelope_correct eaccW expW 60 46 (by norm_num)

/-- Witness for C9 at the fire state and the score pair 0 ≤ 100. -/
theorem spawn_policy_correct_witness :
    (¬ env0.time - fireState.lastSpawnTime > spawnRate fireState.score →
      spawnPhase env0 fireState = fireState) ∧
    (env0.time - fireState.lastSpawnTime > spawnRate fireState.score →
      spawnPhase env0 fireState
        = { spawnRocket env0 fireState with lastSpawnTime := env0.time }) ∧
    ((∀ c ∈ fireState.cities, c.active = false) →
      (∀ t ∈ fireState.turrets, t.active = false) →
      spawnRocket env0 fireState = fireState) ∧
    500 ≤ spawnRate fireState.score ∧
    spawnRate 100 ≤ spawnRate 0 :=
  spawn_policy_correct env0 fireState 0 100 (by decide)

/-- Witness for C10 at the fire state (status `PLAYING` by `rfl`). -/
theorem explosion_frame_correct_witness :
    (explosionsPhase fireState).cities = fireState.cities ∧
    (explosionsPhase fireState).turrets = fireState.turrets ∧
    (explosionsPhase fireState).missiles = fireState.missiles ∧
    (spawnPhase env0 fireState).cities = fireState.cities ∧
    (spawnPhase env0 fireState).turrets = fireState.turrets ∧
    (step env0 fireState).cities = (rocketsPhase (spawnPhase env0 fireState)).cities ∧
    (step env0 fireState).turrets = (rocketsPhase (spawnPhase env0 fireState)).turrets :=
  explosion_frame_correct env0 fireState rfl

end

end NovaDefense
